import Mathlib

/-!
Verification of the `blockDiskStore` (src/libkbfs/block_disk_store.go) and of the
non-blocking reporter (src/libkbfs/reporter_kbpki.go) of the kbfs block journal.

The on-disk layout `root/HHHH/XX…/{id,data,ksh,refs}` is embedded as an
association list from block ids to per-block directories; each directory holds
the four files of a block directory (`id`, `data`, `ksh`, `refs`) as optional
contents.  File contents are kept abstract: block data is a `List Nat` of
bytes, the key server half a `Nat`, the content hash an arbitrary function
`List Nat → Nat` passed to the operations that use `cryptoPure`.

The reference-map type `blockRefMap` and `validateBlockPut` are not part of the
sources; they are modelled from the spec (sections 3, 4.1, 4.3), as marked on
each definition.
-/

namespace KBFS

/-- Status of one block reference, from the spec data model:
`status ∈ \x7blive, archived\x7d`. -/
inductive blockRefStatus where
  | liveBlockRef
  | archivedBlockRef
deriving DecidableEq, Repr

/-- A block context `(creator, writer, ref-nonce)` identifying one reference to
a block.  The three components are opaque; they are embedded as naturals. -/
structure BlockContext where
  creator : Nat
  writer : Nat
  refNonce : Nat
deriving DecidableEq, Repr

/-- One entry of the per-block reference map: `(status, tag)`. -/
structure blockRefEntry where
  status : blockRefStatus
  tag : String
deriving DecidableEq, Repr

/-- Modelled from the spec (§3, §4.3): per-block reference map
`\x7bcontext → (status, tag)\x7d`, embedded as an association list with unique
context keys. -/
abbrev blockRefMap := List (BlockContext × blockRefEntry)

/-- Map lookup by context (Go map indexing). -/
def refLookup : blockRefMap → BlockContext → Option blockRefEntry
  | [], _ => none
  | (c', e) :: rest, c => if c' = c then some e else refLookup rest c

/-- Modelled from the spec (§4.3): `blockRefMap.put(ctx, status, tag)`
overwrites status and tag for `ctx`; distinct contexts coexist. -/
def refPut : blockRefMap → BlockContext → blockRefEntry → blockRefMap
  | [], c, e => [(c, e)]
  | (c', e') :: rest, c, e =>
    if c' = c then (c, e) :: rest else (c', e') :: refPut rest c e

/-- Deletion of a key from the map (Go `delete(m, ctx)`). -/
def refErase : blockRefMap → BlockContext → blockRefMap
  | [], _ => []
  | (c', e') :: rest, c =>
    if c' = c then refErase rest c else (c', e') :: refErase rest c

/-- Modelled from the spec (§4.3): `blockRefMap.remove(ctx, tag)` — if `tag` is
empty the removal is unconditional, otherwise the reference is removed only
when the stored tag equals `tag`; a no-op if the context is absent. -/
def refRemove (m : blockRefMap) (c : BlockContext) (tag : String) : blockRefMap :=
  match refLookup m c with
  | none => m
  | some e => if tag = "" ∨ e.tag = tag then refErase m c else m

/-- Modelled from the spec (§4.3): `blockRefMap.checkExists(ctx)`.  With
references keyed by the full context (spec §3: context keys are unique within
one block), a present key always carries identical metadata, so the
conflicting-metadata error path cannot fire and the check is a plain
membership test. -/
def refCheckExists (m : blockRefMap) (c : BlockContext) : Bool :=
  (refLookup m c).isSome

/-- Modelled from the spec (§4.3): true iff any entry has status `live`. -/
def refHasNonArchived (m : blockRefMap) : Bool :=
  m.any (fun p => p.2.status == blockRefStatus.liveBlockRef)

/-- The most recent tag stored for a context, if any. -/
def storedTag (m : blockRefMap) (c : BlockContext) : Option String :=
  (refLookup m c).map blockRefEntry.tag

/-- Errors surfaced by the store operations, one constructor per distinct
error produced in block_disk_store.go (plus `ioError` for an injected
filesystem write failure). -/
inductive StoreErr where
  | blockNonExistent (id : Nat)
  | serverHalfMismatch (expected got : Nat)
  | idMismatch (expected got : Nat)
  | putHashMismatch (expected got : Nat)
  | referencedBlock (id : Nat)
  | ioError
deriving DecidableEq, Repr

/-- One block directory `root/…/id/`: the `id` file, and the optional `data`,
`ksh` and `refs` files. -/
structure blockDir where
  idFile : Bool
  data : Option (List Nat)
  ksh : Option Nat
  refs : Option blockRefMap
deriving DecidableEq, Repr

/-- A freshly created, empty block directory (no files yet). -/
def emptyDir : blockDir := ⟨false, none, none, none⟩

/-- The on-disk state of a `blockDiskStore`: block id → block directory. -/
abbrev Store := List (Nat × blockDir)

/-- Directory lookup by block id. -/
def storeLookup : Store → Nat → Option blockDir
  | [], _ => none
  | (i, d) :: rest, id => if i = id then some d else storeLookup rest id

/-- Replace (or create) the directory of a block id. -/
def storeSet : Store → Nat → blockDir → Store
  | [], id, d => [(id, d)]
  | (i, d') :: rest, id, d =>
    if i = id then (id, d) :: rest else (i, d') :: storeSet rest id d

/-- Delete the directory of a block id (`os.RemoveAll` on the block path). -/
def storeErase : Store → Nat → Store
  | [], _ => []
  | (i, d') :: rest, id =>
    if i = id then storeErase rest id else (i, d') :: storeErase rest id

/-- The directory of a block id, empty when the directory does not exist. -/
def dirOf (s : Store) (id : Nat) : blockDir :=
  (storeLookup s id).getD emptyDir

/-- Contents of the `data` file of a block, if present. -/
def dataOf (s : Store) (id : Nat) : Option (List Nat) :=
  (dirOf s id).data

/-- Contents of the `ksh` file of a block, if present. -/
def kshOf (s : Store) (id : Nat) : Option Nat :=
  (dirOf s id).ksh

/-- Whether the `id` file of a block has been written. -/
def idFileOf (s : Store) (id : Nat) : Bool :=
  (dirOf s id).idFile

/-- `getRefInfo` (block_disk_store.go:146): references of a block; an absent
`refs` file deserializes to the empty map. -/
def getRefInfo (s : Store) (id : Nat) : blockRefMap :=
  (dirOf s id).refs.getD []

/-- `putRefInfo` (block_disk_store.go:161): serialize the references to the
`refs` file of the block. -/
def putRefInfo (s : Store) (id : Nat) (m : blockRefMap) : Store :=
  storeSet s id { dirOf s id with refs := some m }

/-- `os.MkdirAll` step of `makeDir`: ensure the block directory exists. -/
def mkDirEntry (s : Store) (id : Nat) : Store :=
  match storeLookup s id with
  | some _ => s
  | none => s ++ [(id, emptyDir)]

/-- `ioutil.WriteFile(idPath)` step of `makeDir`: write the `id` file. -/
def writeIdFile (s : Store) (id : Nat) : Store :=
  storeSet s id { dirOf s id with idFile := true }

/-- `makeDir` (block_disk_store.go:119): make the block directory and write
the `id` file. -/
def makeDir (s : Store) (id : Nat) : Store :=
  writeIdFile (mkDirEntry s id) id

/-- `ioutil.WriteFile(dataPath)`: write the `data` file. -/
def writeData (s : Store) (id : Nat) (buf : List Nat) : Store :=
  storeSet s id { dirOf s id with data := some buf }

/-- `ioutil.WriteFile(keyServerHalfPath)`: write the `ksh` file. -/
def writeKsh (s : Store) (id : Nat) (sh : Nat) : Store :=
  storeSet s id { dirOf s id with ksh := some sh }

/-- `addRefs` (block_disk_store.go:167): read the references, put every given
context with the same status and tag, and write them back.  The
`checkExists` consistency loop of the source cannot fail in the spec's data
model (see `refCheckExists`), so it has no effect here. -/
def addRefs (s : Store) (id : Nat) (contexts : List BlockContext)
    (status : blockRefStatus) (tag : String) : Store :=
  let refInfo := getRefInfo s id
  let refInfo' := contexts.foldl (fun m c => refPut m c ⟨status, tag⟩) refInfo
  putRefInfo s id refInfo'

/-- `getData` (block_disk_store.go:196): read `data` and `ksh`
(*block-non-existent* when either file is missing), revalidate that the data
hashes to the id, and unmarshal the server half. -/
def getData (h : List Nat → Nat) (s : Store) (id : Nat) :
    Except StoreErr (List Nat × Nat) :=
  match dataOf s id with
  | none => .error (.blockNonExistent id)
  | some buf =>
    match kshOf s id with
    | none => .error (.blockNonExistent id)
    | some k =>
      let dataID := h buf
      if id ≠ dataID then .error (.idMismatch id dataID)
      else .ok (buf, k)

/-- `hasAnyRef` (block_disk_store.go:238). -/
def hasAnyRef (s : Store) (id : Nat) : Bool :=
  !(getRefInfo s id).isEmpty

/-- `hasNonArchivedRef` (block_disk_store.go:247). -/
def hasNonArchivedRef (s : Store) (id : Nat) : Bool :=
  refHasNonArchived (getRefInfo s id)

/-- `hasContext` (block_disk_store.go:256). -/
def hasContext (s : Store) (id : Nat) (c : BlockContext) : Bool :=
  refCheckExists (getRefInfo s id) c

/-- `hasData` (block_disk_store.go:266): `os.Stat` on the `data` file. -/
def hasData (s : Store) (id : Nat) : Bool :=
  (dataOf s id).isSome

/-- `getDataWithContext` (block_disk_store.go:281): *block-non-existent*
unless the reference exists, then `getData`. -/
def getDataWithContext (h : List Nat → Nat) (s : Store) (id : Nat)
    (c : BlockContext) : Except StoreErr (List Nat × Nat) :=
  if hasContext s id c = true then getData h s id
  else .error (.blockNonExistent id)

/-- Modelled from the spec (§4.1): `validateBlockPut` validates
`hash(data) == id`; the context argument carries no check in the spec's
contract. -/
def validateBlockPut (h : List Nat → Nat) (id : Nat) (_c : BlockContext)
    (buf : List Nat) : Except StoreErr Unit :=
  if h buf = id then .ok () else .error (.putHashMismatch id (h buf))

/-- `put` (block_disk_store.go:357): validate the hash, probe existing data
via `getDataWithContext`, on existing data require equal server halves, on
absent data write `data` and `ksh` after `makeDir`, finally add a live
reference for the context. -/
def put (h : List Nat → Nat) (s : Store) (id : Nat) (c : BlockContext)
    (buf : List Nat) (sh : Nat) (tag : String) :
    Except StoreErr Unit × Store :=
  match validateBlockPut h id c buf with
  | .error e => (.error e, s)
  | .ok _ =>
    match getDataWithContext h s id c with
    | .error (.blockNonExistent _) =>
      (.ok (), addRefs (writeKsh (writeData (makeDir s id) id buf) id sh)
        id [c] .liveBlockRef tag)
    | .error e => (.error e, s)
    | .ok (_, existingServerHalf) =>
      if existingServerHalf ≠ sh then
        (.error (.serverHalfMismatch existingServerHalf sh), s)
      else
        (.ok (), addRefs s id [c] .liveBlockRef tag)

/-- `put` with filesystem write-failure injection: `fuel` is the number of
file-system mutations (`MkdirAll`, the `id`, `data`, `ksh` and `refs` file
writes) that succeed before one fails with an i/o error, exactly in the order
the source performs them.  `fuel ≥ 5` never fails. -/
def putF (h : List Nat → Nat) (fuel : Nat) (s : Store) (id : Nat)
    (c : BlockContext) (buf : List Nat) (sh : Nat) (tag : String) :
    Except StoreErr Unit × Store :=
  match validateBlockPut h id c buf with
  | .error e => (.error e, s)
  | .ok _ =>
    match getDataWithContext h s id c with
    | .error (.blockNonExistent _) =>
      if fuel = 0 then (.error .ioError, s)
      else if fuel = 1 then (.error .ioError, mkDirEntry s id)
      else if fuel = 2 then (.error .ioError, writeIdFile (mkDirEntry s id) id)
      else if fuel = 3 then
        (.error .ioError, writeData (writeIdFile (mkDirEntry s id) id) id buf)
      else if fuel = 4 then
        (.error .ioError,
          writeKsh (writeData (writeIdFile (mkDirEntry s id) id) id buf) id sh)
      else
        (.ok (), addRefs
          (writeKsh (writeData (writeIdFile (mkDirEntry s id) id) id buf) id sh)
          id [c] .liveBlockRef tag)
    | .error e => (.error e, s)
    | .ok (_, existingServerHalf) =>
      if existingServerHalf ≠ sh then
        (.error (.serverHalfMismatch existingServerHalf sh), s)
      else if fuel = 0 then (.error .ioError, s)
      else (.ok (), addRefs s id [c] .liveBlockRef tag)

/-- `addReference` (block_disk_store.go:420): ensure the directory and `id`
file exist, then record a live reference. -/
def addReference (s : Store) (id : Nat) (c : BlockContext) (tag : String) :
    Store :=
  addRefs (makeDir s id) id [c] .liveBlockRef tag

/-- `archiveReferences` (block_disk_store.go:430). -/
def archiveReferences (s : Store) (contexts : List (Nat × List BlockContext))
    (tag : String) : Store :=
  contexts.foldl
    (fun st p => addRefs (makeDir st p.1) p.1 p.2 .archivedBlockRef tag) s

/-- The removal loop of `removeReferences` (block_disk_store.go:462): remove
each context in turn, breaking as soon as the map becomes empty. -/
def removeLoop (m : blockRefMap) (contexts : List BlockContext)
    (tag : String) : blockRefMap :=
  match contexts with
  | [] => m
  | c :: cs =>
    if (refRemove m c tag).length = 0 then refRemove m c tag
    else removeLoop (refRemove m c tag) cs tag

/-- `removeReferences` (block_disk_store.go:451): short-circuit with count 0
when the map is empty, otherwise remove the given contexts (tag-gated), write
the references back and return the size of the remaining map. -/
def removeReferences (s : Store) (id : Nat) (contexts : List BlockContext)
    (tag : String) : Nat × Store :=
  let refInfo := getRefInfo s id
  if refInfo.length = 0 then (0, s)
  else
    let refInfo' := removeLoop refInfo contexts tag
    (refInfo'.length, putRefInfo s id refInfo')

/-- `remove` (block_disk_store.go:482): an error when any reference remains,
otherwise `os.RemoveAll` of the block directory. -/
def remove (s : Store) (id : Nat) : Except StoreErr Unit × Store :=
  if hasAnyRef s id then (.error (.referencedBlock id), s)
  else (.ok (), storeErase s id)

/-- The notification buffers of a `ReporterKBPKI`
(reporter_kbpki.go:68): two channels of capacity `bufSize`; the payloads are
opaque and embedded as naturals. -/
structure ReporterKBPKI where
  notifyBuffer : List Nat
  notifySyncBuffer : List Nat
  bufSize : Nat
deriving DecidableEq, Repr

/-- `Notify` (reporter_kbpki.go:175): a `select` with a `default` branch on
the buffered channel — enqueue when there is room, otherwise drop the
notification; in either case the call returns.  Its embedding as a total
function on the buffer state is the non-blocking semantics. -/
def Notify (r : ReporterKBPKI) (n : Nat) : ReporterKBPKI :=
  if r.notifyBuffer.length < r.bufSize then
    { r with notifyBuffer := r.notifyBuffer ++ [n] }
  else r

/-- `NotifySyncStatus` (reporter_kbpki.go:189): same non-blocking send on the
sync-status channel. -/
def NotifySyncStatus (r : ReporterKBPKI) (st : Nat) : ReporterKBPKI :=
  if r.notifySyncBuffer.length < r.bufSize then
    { r with notifySyncBuffer := r.notifySyncBuffer ++ [st] }
  else r

/-- A concrete content hash for witnesses: the sum of the bytes. -/
def hashSum (l : List Nat) : Nat :=
  l.foldl (fun a b => a + b) 0

/-- A concrete block context for witnesses. -/
def cctx : BlockContext := ⟨1, 2, 3⟩

/-- Concrete store: block `10` has data `[1,2,3,4]` (which `hashSum`-hashes to
`10`), server half `0`, and an empty reference map — in particular no
reference recorded for `cctx`. -/
def sNoCtx : Store :=
  [(10, blockDir.mk true (some [1, 2, 3, 4]) (some 0) (some []))]

/-- Concrete store: as `sNoCtx` but with a live reference recorded for
`cctx`. -/
def sWithCtx : Store :=
  [(10, blockDir.mk true (some [1, 2, 3, 4]) (some 0)
    (some [(cctx, blockRefEntry.mk .liveBlockRef "t")]))]

/-! ### Association-list lemmas for the store -/

@[simp]
theorem storeLookup_storeSet_self (s : Store) (id : Nat) (d : blockDir) :
    storeLookup (storeSet s id d) id = some d := by
  induction s with
  | nil => simp [storeSet, storeLookup]
  | cons p rest ih =>
    obtain ⟨i, d'⟩ := p
    by_cases hi : i = id
    · simp [storeSet, hi, storeLookup]
    · simp [storeSet, hi, storeLookup, ih]

theorem storeLookup_storeSet_other {id' id : Nat} (h : id' ≠ id)
    (s : Store) (d : blockDir) :
    storeLookup (storeSet s id d) id' = storeLookup s id' := by
  induction s with
  | nil => simp [storeSet, storeLookup, Ne.symm h]
  | cons p rest ih =>
    obtain ⟨i, d'⟩ := p
    by_cases hi : i = id
    · subst hi
      simp [storeSet, storeLookup, Ne.symm h]
    · simp [storeSet, hi, storeLookup, ih]

theorem storeSet_lookup_self {s : Store} {id : Nat} {d : blockDir}
    (h : storeLookup s id = some d) : storeSet s id d = s := by
  induction s with
  | nil => simp [storeLookup] at h
  | cons p rest ih =>
    obtain ⟨i, d'⟩ := p
    by_cases hi : i = id
    · subst hi
      simp [storeLookup] at h
      simp [storeSet, h]
    · simp [storeLookup, hi] at h
      simp [storeSet, hi, ih h]

@[simp]
theorem storeLookup_storeErase_self (s : Store) (id : Nat) :
    storeLookup (storeErase s id) id = none := by
  induction s with
  | nil => simp [storeErase, storeLookup]
  | cons p rest ih =>
    obtain ⟨i, d'⟩ := p
    by_cases hi : i = id
    · simp [storeErase, hi, ih]
    · simp [storeErase, hi, storeLookup, ih]

theorem storeLookup_append_of_none {s : Store} {id : Nat}
    (h : storeLookup s id = none) (l : Store) :
    storeLookup (s ++ l) id = storeLookup l id := by
  induction s with
  | nil => simp
  | cons p rest ih =>
    obtain ⟨i, d'⟩ := p
    by_cases hi : i = id
    · simp [storeLookup, hi] at h
    · simp [storeLookup, hi] at h ⊢
      exact ih h

@[simp]
theorem dirOf_storeSet_self (s : Store) (id : Nat) (d : blockDir) :
    dirOf (storeSet s id d) id = d := by
  simp [dirOf]

theorem dirOf_storeSet_other {id' id : Nat} (h : id' ≠ id)
    (s : Store) (d : blockDir) :
    dirOf (storeSet s id d) id' = dirOf s id' := by
  simp [dirOf, storeLookup_storeSet_other h]

theorem storeLookup_append_single_other {id' id : Nat} (h : id' ≠ id)
    (s : Store) (d : blockDir) :
    storeLookup (s ++ [(id, d)]) id' = storeLookup s id' := by
  induction s with
  | nil => simp [storeLookup, Ne.symm h]
  | cons p rest ih =>
    obtain ⟨i, d'⟩ := p
    by_cases hi : i = id'
    · simp [storeLookup, hi]
    · simp [storeLookup, hi, ih]

theorem storeLookup_mkDirEntry_self (s : Store) (id : Nat) :
    storeLookup (mkDirEntry s id) id = some (dirOf s id) := by
  unfold mkDirEntry
  cases hl : storeLookup s id with
  | some d => simp [dirOf, hl]
  | none => simp [dirOf, hl, storeLookup_append_of_none hl, storeLookup]

theorem dirOf_mkDirEntry (s : Store) (id id' : Nat) :
    dirOf (mkDirEntry s id) id' = dirOf s id' := by
  by_cases hi : id' = id
  · subst hi
    simp [dirOf, storeLookup_mkDirEntry_self]
  · unfold mkDirEntry
    cases hl : storeLookup s id with
    | some d => rfl
    | none => simp [dirOf, storeLookup_append_single_other hi]

/-! ### Reference-map lemmas -/

@[simp]
theorem refLookup_refPut_self (m : blockRefMap) (c : BlockContext)
    (e : blockRefEntry) : refLookup (refPut m c e) c = some e := by
  induction m with
  | nil => simp [refPut, refLookup]
  | cons p rest ih =>
    obtain ⟨c', e'⟩ := p
    by_cases hc : c' = c
    · simp [refPut, hc, refLookup]
    · simp [refPut, hc, refLookup, ih]

theorem refPut_lookup_self {m : blockRefMap} {c : BlockContext}
    {e : blockRefEntry} (h : refLookup m c = some e) : refPut m c e = m := by
  induction m with
  | nil => simp [refLookup] at h
  | cons p rest ih =>
    obtain ⟨c', e'⟩ := p
    by_cases hc : c' = c
    · subst hc
      simp [refLookup] at h
      simp [refPut, h]
    · simp [refLookup, hc] at h
      simp [refPut, hc, ih h]

theorem refLookup_refErase (m : blockRefMap) (c0 c : BlockContext) :
    refLookup (refErase m c0) c = if c = c0 then none else refLookup m c := by
  induction m with
  | nil => simp [refErase, refLookup]
  | cons p rest ih =>
    obtain ⟨c', e'⟩ := p
    by_cases hc' : c' = c0
    · by_cases hc : c = c0
      · subst hc
        simp [refErase, hc', ih]
      · have hne : ¬ c0 = c := fun hh => hc hh.symm
        simp [refErase, hc', ih, hc, refLookup, hne]
    · by_cases hcc : c' = c
      · have hccne : ¬ c = c0 := fun hh => hc' (hcc.trans hh)
        simp [refErase, hc', refLookup, hcc, hccne]
      · simp [refErase, hc', refLookup, hcc, ih]

theorem refErase_eq_nil {m : blockRefMap} {c0 : BlockContext}
    (h : refErase m c0 = []) {c : BlockContext} (hc : c ≠ c0) :
    refLookup m c = none := by
  induction m with
  | nil => rfl
  | cons p rest ih =>
    obtain ⟨c', e'⟩ := p
    by_cases hc' : c' = c0
    · rw [refErase, if_pos hc'] at h
      have hne : ¬ c' = c := fun hh => hc (hh.symm.trans hc')
      rw [refLookup, if_neg hne]
      exact ih h
    · rw [refErase, if_neg hc'] at h
      exact absurd h (List.cons_ne_nil _ _)

theorem refLookup_refRemove (m : blockRefMap) (c0 : BlockContext)
    (tag : String) (c : BlockContext) :
    refLookup (refRemove m c0 tag) c =
      if c = c0 ∧ (tag = "" ∨ storedTag m c0 = some tag) then none
      else refLookup m c := by
  unfold refRemove storedTag
  cases hl : refLookup m c0 with
  | none =>
    simp only [Option.map_none']
    by_cases hcond : c = c0 ∧ (tag = "" ∨ (none : Option String) = some tag)
    · rw [if_pos hcond, hcond.1, hl]
    · rw [if_neg hcond]
  | some e =>
    simp only [Option.map_some']
    by_cases ht : tag = "" ∨ e.tag = tag
    · rw [if_pos ht, refLookup_refErase]
      have : (c = c0 ∧ (tag = "" ∨ some e.tag = some tag)) ↔ c = c0 := by
        constructor
        · exact fun hh => hh.1
        · exact fun hh => ⟨hh, by simpa using ht⟩
      rw [if_congr this rfl rfl]
    · rw [if_neg ht, if_neg]
      intro hh
      exact ht (by simpa using hh.2)

theorem storedTag_refRemove (m : blockRefMap) (c0 : BlockContext)
    (tag : String) (c : BlockContext) :
    storedTag (refRemove m c0 tag) c =
      if c = c0 ∧ (tag = "" ∨ storedTag m c0 = some tag) then none
      else storedTag m c := by
  have h := refLookup_refRemove m c0 tag c
  simp only [storedTag, h, apply_ite (Option.map blockRefEntry.tag),
    Option.map_none']

theorem refRemove_eq_self {m : blockRefMap} {c0 : BlockContext} {tag : String}
    (h : ¬ (tag = "" ∨ storedTag m c0 = some tag)) : refRemove m c0 tag = m := by
  unfold refRemove
  cases hl : refLookup m c0 with
  | none => rfl
  | some e =>
    have he : ¬ (tag = "" ∨ e.tag = tag) := by
      intro hh
      refine h (hh.imp id fun ht => ?_)
      rw [storedTag, hl, Option.map_some', ht]
    simp [he]

/-! ### Effect of the write operations on the per-block files -/

theorem dataOf_putRefInfo (s : Store) (id : Nat) (m : blockRefMap) (id' : Nat) :
    dataOf (putRefInfo s id m) id' = dataOf s id' := by
  by_cases hi : id' = id
  · subst hi
    simp [dataOf, putRefInfo]
  · simp [dataOf, putRefInfo, dirOf_storeSet_other hi]

theorem kshOf_putRefInfo (s : Store) (id : Nat) (m : blockRefMap) (id' : Nat) :
    kshOf (putRefInfo s id m) id' = kshOf s id' := by
  by_cases hi : id' = id
  · subst hi
    simp [kshOf, putRefInfo]
  · simp [kshOf, putRefInfo, dirOf_storeSet_other hi]

theorem idFileOf_putRefInfo (s : Store) (id : Nat) (m : blockRefMap)
    (id' : Nat) : idFileOf (putRefInfo s id m) id' = idFileOf s id' := by
  by_cases hi : id' = id
  · subst hi
    simp [idFileOf, putRefInfo]
  · simp [idFileOf, putRefInfo, dirOf_storeSet_other hi]

theorem getRefInfo_putRefInfo_self (s : Store) (id : Nat) (m : blockRefMap) :
    getRefInfo (putRefInfo s id m) id = m := by
  simp [getRefInfo, putRefInfo]

theorem getRefInfo_writeIdFile (s : Store) (id id' : Nat) :
    getRefInfo (writeIdFile s id) id' = getRefInfo s id' := by
  by_cases hi : id' = id
  · subst hi
    simp [getRefInfo, writeIdFile]
  · simp [getRefInfo, writeIdFile, dirOf_storeSet_other hi]

theorem getRefInfo_writeData (s : Store) (id : Nat) (buf : List Nat)
    (id' : Nat) : getRefInfo (writeData s id buf) id' = getRefInfo s id' := by
  by_cases hi : id' = id
  · subst hi
    simp [getRefInfo, writeData]
  · simp [getRefInfo, writeData, dirOf_storeSet_other hi]

theorem getRefInfo_writeKsh (s : Store) (id sh : Nat) (id' : Nat) :
    getRefInfo (writeKsh s id sh) id' = getRefInfo s id' := by
  by_cases hi : id' = id
  · subst hi
    simp [getRefInfo, writeKsh]
  · simp [getRefInfo, writeKsh, dirOf_storeSet_other hi]

theorem getRefInfo_mkDirEntry (s : Store) (id id' : Nat) :
    getRefInfo (mkDirEntry s id) id' = getRefInfo s id' := by
  simp [getRefInfo, dirOf_mkDirEntry]

theorem getRefInfo_makeDir (s : Store) (id id' : Nat) :
    getRefInfo (makeDir s id) id' = getRefInfo s id' := by
  simp [makeDir, getRefInfo_writeIdFile, getRefInfo_mkDirEntry]

theorem dataOf_writeData_self (s : Store) (id : Nat) (buf : List Nat) :
    dataOf (writeData s id buf) id = some buf := by
  simp [dataOf, writeData]

theorem dataOf_writeKsh (s : Store) (id sh : Nat) (id' : Nat) :
    dataOf (writeKsh s id sh) id' = dataOf s id' := by
  by_cases hi : id' = id
  · subst hi
    simp [dataOf, writeKsh]
  · simp [dataOf, writeKsh, dirOf_storeSet_other hi]

theorem kshOf_writeKsh_self (s : Store) (id sh : Nat) :
    kshOf (writeKsh s id sh) id = some sh := by
  simp [kshOf, writeKsh]

theorem dataOf_makeDir (s : Store) (id id' : Nat) :
    dataOf (makeDir s id) id' = dataOf s id' := by
  by_cases hi : id' = id
  · subst hi
    simp [dataOf, makeDir, writeIdFile, dirOf_mkDirEntry]
  · simp [dataOf, makeDir, writeIdFile, dirOf_storeSet_other hi,
      dirOf_mkDirEntry]

theorem kshOf_makeDir (s : Store) (id id' : Nat) :
    kshOf (makeDir s id) id' = kshOf s id' := by
  by_cases hi : id' = id
  · subst hi
    simp [kshOf, makeDir, writeIdFile, dirOf_mkDirEntry]
  · simp [kshOf, makeDir, writeIdFile, dirOf_storeSet_other hi,
      dirOf_mkDirEntry]

theorem idFileOf_makeDir_self (s : Store) (id : Nat) :
    idFileOf (makeDir s id) id = true := by
  simp [idFileOf, makeDir, writeIdFile]

/-! ### `addRefs` on a single context -/

theorem addRefs_single (s : Store) (id : Nat) (c : BlockContext)
    (status : blockRefStatus) (tag : String) :
    addRefs s id [c] status tag =
      putRefInfo s id (refPut (getRefInfo s id) c ⟨status, tag⟩) := rfl

theorem storeSet_storeSet (s : Store) (id : Nat) (d1 d2 : blockDir) :
    storeSet (storeSet s id d1) id d2 = storeSet s id d2 := by
  induction s with
  | nil => simp [storeSet]
  | cons p rest ih =>
    obtain ⟨i, d'⟩ := p
    by_cases hi : i = id
    · simp [storeSet, hi]
    · simp [storeSet, hi, ih]

theorem putRefInfo_putRefInfo (s : Store) (id : Nat) (m m' : blockRefMap) :
    putRefInfo (putRefInfo s id m) id m' = putRefInfo s id m' := by
  unfold putRefInfo
  rw [dirOf_storeSet_self]
  exact storeSet_storeSet s id _ _

theorem addRefs_single_idem (s : Store) (id : Nat) (c : BlockContext)
    (status : blockRefStatus) (tag : String) :
    addRefs (addRefs s id [c] status tag) id [c] status tag =
      addRefs s id [c] status tag := by
  rw [addRefs_single, addRefs_single, getRefInfo_putRefInfo_self,
    refPut_lookup_self (refLookup_refPut_self _ _ _)]
  exact putRefInfo_putRefInfo s id _ _

/-! ### Characterization of `getData` and of the removal loop -/

theorem getData_ok_iff (h : List Nat → Nat) (s : Store) (id : Nat)
    (d : List Nat) (k : Nat) :
    getData h s id = .ok (d, k) ↔
      dataOf s id = some d ∧ kshOf s id = some k ∧ id = h d := by
  unfold getData
  cases hd : dataOf s id with
  | none => simp
  | some buf =>
    cases hk : kshOf s id with
    | none => simp
    | some k0 =>
      by_cases hid : id ≠ h buf
      · simp only [if_pos hid]
        constructor
        · intro hh
          exact absurd hh (by simp)
        · rintro ⟨hb, -, hhd⟩
          cases hb
          exact absurd hhd hid
      · simp only [if_neg hid]
        rw [not_not] at hid
        constructor
        · intro hh
          obtain ⟨hb, hkk⟩ : buf = d ∧ k0 = k := by simpa using hh
          exact ⟨by rw [hb], by rw [hkk], by rw [← hb, ← hid]⟩
        · rintro ⟨hb, hk', hhd⟩
          obtain rfl : buf = d := by simpa using hb
          obtain rfl : k0 = k := by simpa using hk'
          rfl

theorem getData_of_no_data (h : List Nat → Nat) {s : Store} {id : Nat}
    (hd : dataOf s id = none) :
    getData h s id = .error (.blockNonExistent id) := by
  unfold getData
  rw [hd]

theorem removeLoop_lookup (tag : String) (ctxs : List BlockContext) :
    ∀ (m : blockRefMap) (c : BlockContext),
      refLookup (removeLoop m ctxs tag) c =
        if c ∈ ctxs ∧ (tag = "" ∨ storedTag m c = some tag) then none
        else refLookup m c := by
  induction ctxs with
  | nil =>
    intro m c
    simp [removeLoop]
  | cons c0 cs ih =>
    intro m c
    rw [removeLoop]
    by_cases h1 : (refRemove m c0 tag).length = 0
    · rw [if_pos h1]
      have hm1 : refRemove m c0 tag = [] := List.length_eq_zero.mp h1
      rw [hm1]
      have hA := refLookup_refRemove m c0 tag c
      rw [hm1] at hA
      by_cases hcond : c ∈ c0 :: cs ∧ (tag = "" ∨ storedTag m c = some tag)
      · rw [if_pos hcond]
        rfl
      · rw [if_neg hcond]
        by_cases hcc : c = c0 ∧ (tag = "" ∨ storedTag m c0 = some tag)
        · obtain ⟨hc0, hR⟩ := hcc
          subst hc0
          exact absurd ⟨List.mem_cons_self c cs, hR⟩ hcond
        · rw [if_neg hcc] at hA
          exact hA
    · rw [if_neg h1, ih (refRemove m c0 tag) c]
      by_cases hc : c = c0
      · subst hc
        by_cases hR : tag = "" ∨ storedTag m c = some tag
        · have hT := storedTag_refRemove m c tag c
          rw [if_pos ⟨rfl, hR⟩] at hT
          have hL := refLookup_refRemove m c tag c
          rw [if_pos ⟨rfl, hR⟩] at hL
          rw [hT, hL, ite_self, if_pos ⟨List.mem_cons_self c cs, hR⟩]
        · rw [refRemove_eq_self hR,
            if_neg (fun hh => hR hh.2), if_neg (fun hh => hR hh.2)]
      · have hL := refLookup_refRemove m c0 tag c
        rw [if_neg (fun hh => hc hh.1)] at hL
        have hT := storedTag_refRemove m c0 tag c
        rw [if_neg (fun hh => hc hh.1)] at hT
        rw [hL, hT]
        have hmem : (c ∈ c0 :: cs) ↔ (c ∈ cs) := by
          simp [List.mem_cons, hc]
        by_cases hcs : c ∈ cs ∧ (tag = "" ∨ storedTag m c = some tag)
        · rw [if_pos hcs, if_pos ⟨hmem.mpr hcs.1, hcs.2⟩]
        · rw [if_neg hcs,
            if_neg (fun hh => hcs ⟨hmem.mp hh.1, hh.2⟩)]

/-! ## The claims -/

/-- C2: `removeReferences(id, contexts, tag)` removes each listed reference
only if `tag` is empty or matches the stored tag (a context survives exactly
when it is unlisted or tag-mismatched), and the returned count equals the size
of the block's reference map after the operation. -/
theorem claimC2_removeReferences_spec (s : Store) (id : Nat)
    (contexts : List BlockContext) (tag : String) :
    (removeReferences s id contexts tag).1 =
      (getRefInfo (removeReferences s id contexts tag).2 id).length ∧
    ∀ c, refLookup (getRefInfo (removeReferences s id contexts tag).2 id) c =
      if c ∈ contexts ∧ (tag = "" ∨ storedTag (getRefInfo s id) c = some tag)
      then none else refLookup (getRefInfo s id) c := by
  by_cases h0 : (getRefInfo s id).length = 0
  · have hnil : getRefInfo s id = [] := List.length_eq_zero.mp h0
    simp only [removeReferences, if_pos h0]
    constructor
    · exact h0.symm
    · intro c
      rw [hnil]
      split <;> rfl
  · simp only [removeReferences, if_neg h0]
    constructor
    · rw [getRefInfo_putRefInfo_self]
    · intro c
      rw [getRefInfo_putRefInfo_self, removeLoop_lookup]

/-- C8: `removeReferences` leaves the `data` and `ksh` files of every block
untouched. -/
theorem claimC8_removeReferences_frame (s : Store) (id : Nat)
    (contexts : List BlockContext) (tag : String) (id' : Nat) :
    dataOf (removeReferences s id contexts tag).2 id' = dataOf s id' ∧
    kshOf (removeReferences s id contexts tag).2 id' = kshOf s id' := by
  by_cases h0 : (getRefInfo s id).length = 0
  · simp [removeReferences, h0]
  · simp [removeReferences, h0, dataOf_putRefInfo, kshOf_putRefInfo]

/-- C10: when a block's reference map is empty (no `refs` file or an empty
map), `removeReferences` returns count 0 with no error and performs no writes:
the store is returned unchanged, so no directory, `id` file or `refs` file is
created. -/
theorem claimC10_removeReferences_noop (s : Store) (id : Nat)
    (contexts : List BlockContext) (tag : String)
    (h : getRefInfo s id = []) :
    removeReferences s id contexts tag = (0, s) := by
  simp [removeReferences, h]

/-- Witness for C10: on the empty store, a removal of `cctx` for block 10
returns `(0, the unchanged store)`. -/
theorem claimC10_witness :
    getRefInfo ([] : Store) 10 = [] ∧
    removeReferences ([] : Store) 10 [cctx] "" = (0, []) :=
  ⟨rfl, claimC10_removeReferences_noop [] 10 [cctx] "" rfl⟩

/-- C9: `Notify` and `NotifySyncStatus` never block: each is a total function
on the reporter state which, when the corresponding buffer is full, drops the
notification and leaves the state unchanged, and otherwise enqueues it;
a buffer within capacity stays within capacity. -/
theorem claimC9_reporter_nonblocking (r : ReporterKBPKI) (n st : Nat) :
    (r.bufSize ≤ r.notifyBuffer.length → Notify r n = r) ∧
    (r.notifyBuffer.length < r.bufSize →
      (Notify r n).notifyBuffer = r.notifyBuffer ++ [n]) ∧
    (r.notifyBuffer.length ≤ r.bufSize →
      (Notify r n).notifyBuffer.length ≤ r.bufSize) ∧
    (r.bufSize ≤ r.notifySyncBuffer.length → NotifySyncStatus r st = r) ∧
    (r.notifySyncBuffer.length < r.bufSize →
      (NotifySyncStatus r st).notifySyncBuffer = r.notifySyncBuffer ++ [st]) ∧
    (r.notifySyncBuffer.length ≤ r.bufSize →
      (NotifySyncStatus r st).notifySyncBuffer.length ≤ r.bufSize) := by
  refine ⟨?_, ?_, ?_, ?_, ?_, ?_⟩ <;> intro h
  · rw [Notify, if_neg (not_lt.mpr h)]
  · rw [Notify, if_pos h]
  · by_cases hlt : r.notifyBuffer.length < r.bufSize
    · rw [Notify, if_pos hlt]
      simp only [List.length_append, List.length_cons, List.length_nil]
      omega
    · rw [Notify, if_neg hlt]
      exact h
  · rw [NotifySyncStatus, if_neg (not_lt.mpr h)]
  · rw [NotifySyncStatus, if_pos h]
  · by_cases hlt : r.notifySyncBuffer.length < r.bufSize
    · rw [NotifySyncStatus, if_pos hlt]
      simp only [List.length_append, List.length_cons, List.length_nil]
      omega
    · rw [NotifySyncStatus, if_neg hlt]
      exact h

/-- Witness for C9: with capacity 1, a full notify buffer drops the
notification and the state is unchanged, while the sync buffer with room
enqueues. -/
theorem claimC9_witness :
    Notify ⟨[1], [], 1⟩ 5 = ⟨[1], [], 1⟩ ∧
    (NotifySyncStatus ⟨[1], [], 1⟩ 7).notifySyncBuffer = [] ++ [7] :=
  ⟨(claimC9_reporter_nonblocking ⟨[1], [], 1⟩ 5 7).1 (by decide),
    (claimC9_reporter_nonblocking ⟨[1], [], 1⟩ 5 7).2.2.2.2.1 (by decide)⟩

/-- C7: `remove(id)` succeeds and deletes the block directory exactly when
no reference, live or archived, remains; when any reference remains it fails
with an error and the store is unchanged. -/
theorem claimC7_remove_spec (s : Store) (id : Nat) :
    (hasAnyRef s id = true →
      remove s id = (.error (.referencedBlock id), s)) ∧
    (hasAnyRef s id = false →
      remove s id = (.ok (), storeErase s id) ∧
      storeLookup (storeErase s id) id = none) := by
  constructor
  · intro h
    rw [remove, if_pos h]
  · intro h
    refine ⟨?_, storeLookup_storeErase_self s id⟩
    rw [remove, if_neg (by simp [h])]

/-- Witness for C7: both branches at concrete stores — removal succeeds and
deletes the directory on a store with an empty reference map, and fails
leaving the store unchanged when a live reference remains. -/
theorem claimC7_witness :
    (hasAnyRef sNoCtx 10 = false ∧
      remove sNoCtx 10 = (.ok (), storeErase sNoCtx 10) ∧
      storeLookup (storeErase sNoCtx 10) 10 = none) ∧
    (hasAnyRef sWithCtx 10 = true ∧
      remove sWithCtx 10 = (.error (.referencedBlock 10), sWithCtx)) :=
  ⟨⟨rfl, (claimC7_remove_spec sNoCtx 10).2 rfl⟩,
    ⟨rfl, (claimC7_remove_spec sWithCtx 10).1 rfl⟩⟩

/-- C5: `getData(id)` fails with *block-non-existent* exactly when the `data`
file or the `ksh` file is missing; when both are present it returns the stored
bytes and server half after revalidating the hash, and fails with the
ID-mismatch (corruption) error when the bytes do not hash to `id`. -/
theorem claimC5_getData_spec (h : List Nat → Nat) (s : Store) (id : Nat) :
    (getData h s id = .error (.blockNonExistent id) ↔
      dataOf s id = none ∨ kshOf s id = none) ∧
    (∀ d k, dataOf s id = some d → kshOf s id = some k →
      getData h s id =
        if id ≠ h d then .error (.idMismatch id (h d)) else .ok (d, k)) := by
  constructor
  · unfold getData
    cases hd : dataOf s id with
    | none => simp
    | some buf =>
      cases hk : kshOf s id with
      | none => simp
      | some k0 =>
        by_cases hid : id ≠ h buf
        · simp [hid]
        · simp [hid]
  · intro d k hd hk
    unfold getData
    rw [hd, hk]

/-- Witness for C5: on `sNoCtx` both files are present, the bytes hash to the
id, and `getData` returns them with the stored server half. -/
theorem claimC5_witness :
    dataOf sNoCtx 10 = some [1, 2, 3, 4] ∧
    kshOf sNoCtx 10 = some 0 ∧
    getData hashSum sNoCtx 10 =
      if (10 : Nat) ≠ hashSum [1, 2, 3, 4] then
        .error (.idMismatch 10 (hashSum [1, 2, 3, 4]))
      else .ok ([1, 2, 3, 4], 0) :=
  ⟨rfl, rfl, (claimC5_getData_spec hashSum sNoCtx 10).2 [1, 2, 3, 4] 0 rfl rfl⟩

/-- C6: for a block with no stored data, `addReference` succeeds, creates the
block directory and `id` file, records a live reference for the context, and a
subsequent `getDataWithContext` for that context fails with
*block-non-existent*. -/
theorem claimC6_addReference_spec (h : List Nat → Nat) (s : Store) (id : Nat)
    (c : BlockContext) (tag : String) (hnd : dataOf s id = none) :
    idFileOf (addReference s id c tag) id = true ∧
    refLookup (getRefInfo (addReference s id c tag) id) c =
      some ⟨.liveBlockRef, tag⟩ ∧
    getDataWithContext h (addReference s id c tag) id c =
      .error (.blockNonExistent id) := by
  have hs' : addReference s id c tag =
      putRefInfo (makeDir s id) id
        (refPut (getRefInfo s id) c ⟨.liveBlockRef, tag⟩) := by
    rw [addReference, addRefs_single, getRefInfo_makeDir]
  refine ⟨?_, ?_, ?_⟩
  · rw [hs', idFileOf_putRefInfo, idFileOf_makeDir_self]
  · rw [hs', getRefInfo_putRefInfo_self, refLookup_refPut_self]
  · have hctx : hasContext (addReference s id c tag) id c = true := by
      rw [hasContext, refCheckExists, hs', getRefInfo_putRefInfo_self,
        refLookup_refPut_self]
      rfl
    rw [getDataWithContext, if_pos hctx]
    apply getData_of_no_data
    rw [hs', dataOf_putRefInfo, dataOf_makeDir, hnd]

/-- Witness for C6: adding a reference for block 10 (no data anywhere) on the
empty store creates the directory, records the live reference, and the
subsequent context read fails with *block-non-existent*. -/
theorem claimC6_witness :
    dataOf ([] : Store) 10 = none ∧
    (idFileOf (addReference [] 10 cctx "t") 10 = true ∧
      refLookup (getRefInfo (addReference [] 10 cctx "t") 10) cctx =
        some ⟨.liveBlockRef, "t"⟩ ∧
      getDataWithContext hashSum (addReference [] 10 cctx "t") 10 cctx =
        .error (.blockNonExistent 10)) :=
  ⟨rfl, claimC6_addReference_spec hashSum [] 10 cctx "t" rfl⟩

/-- Counterexample to C1 as stated: in `sNoCtx` the store already holds data
for block 10 with stored server half 0, the new buffer hashes to 10, and the
new server half 1 differs from the stored one — yet, because the context has
no recorded reference, `put` succeeds (no server-half-mismatch error) and even
overwrites the stored server half. -/
theorem claimC1_counterexample :
    dataOf sNoCtx 10 = some [1, 2, 3, 4] ∧
    kshOf sNoCtx 10 = some 0 ∧
    hashSum [1, 2, 3, 4] = 10 ∧
    hasContext sNoCtx 10 cctx = false ∧
    (put hashSum sNoCtx 10 cctx [1, 2, 3, 4] 1 "t").1 = .ok () ∧
    kshOf (put hashSum sNoCtx 10 cctx [1, 2, 3, 4] 1 "t").2 10 = some 1 :=
  ⟨rfl, rfl, rfl, rfl, rfl, rfl⟩

/-- C1 (amended): a repeated `put` with a different server half fails with the
server-half-mismatch error only when the context already has a recorded
reference (so that the existence probe `getDataWithContext` succeeds); when
the context has no recorded reference, the `put` succeeds and overwrites the
stored server half. -/
theorem claimC1_amended (h : List Nat → Nat) (s : Store) (id : Nat)
    (c : BlockContext) (buf : List Nat) (sh : Nat) (tag : String)
    (hhash : h buf = id) :
    (∀ d esh, hasContext s id c = true → getData h s id = .ok (d, esh) →
      esh ≠ sh →
      put h s id c buf sh tag = (.error (.serverHalfMismatch esh sh), s)) ∧
    (hasContext s id c = false →
      (put h s id c buf sh tag).1 = .ok () ∧
      kshOf (put h s id c buf sh tag).2 id = some sh) := by
  have hv : validateBlockPut h id c buf = .ok () := by
    rw [validateBlockPut, if_pos hhash]
  constructor
  · intro d esh hctx hgd hne
    have hgdc : getDataWithContext h s id c = .ok (d, esh) := by
      rw [getDataWithContext, if_pos hctx, hgd]
    simp [put, hv, hgdc, hne]
  · intro hctx
    have hgdc : getDataWithContext h s id c =
        .error (.blockNonExistent id) := by
      rw [getDataWithContext, if_neg (by simp [hctx])]
    constructor
    · simp [put, hv, hgdc]
    · simp only [put, hv, hgdc]
      rw [addRefs_single, kshOf_putRefInfo, kshOf_writeKsh_self]

/-- Witness for the amended C1: on `sWithCtx`, where the context has a
recorded reference and the stored half 0 differs from the new half 1, `put`
fails with the server-half mismatch and leaves the store unchanged. -/
theorem claimC1_witness :
    hasContext sWithCtx 10 cctx = true ∧
    put hashSum sWithCtx 10 cctx [1, 2, 3, 4] 1 "t" =
      (.error (.serverHalfMismatch 0 1), sWithCtx) :=
  ⟨rfl, (claimC1_amended hashSum sWithCtx 10 cctx [1, 2, 3, 4] 1 "t" rfl).1
    [1, 2, 3, 4] 0 rfl rfl (by decide)⟩

/-- Counterexample to C3 as stated: injecting a write failure after the third
successful filesystem mutation (directory, `id` file, `data` file) makes `put`
fail at the `ksh` write, leaving a state that is neither the pre-state (the
data file is now present) nor a valid post-state (the `data` file exists
without its `ksh` file, breaking the stated invariant). -/
theorem claimC3_counterexample :
    putF hashSum 3 [] 10 cctx [1, 2, 3, 4] 7 "t" =
      (.error .ioError,
        [(10, blockDir.mk true (some [1, 2, 3, 4]) none none)]) ∧
    dataOf ([] : Store) 10 = none ∧
    hasData [(10, blockDir.mk true (some [1, 2, 3, 4]) none none)] 10 = true ∧
    kshOf [(10, blockDir.mk true (some [1, 2, 3, 4]) none none)] 10 = none :=
  ⟨rfl, rfl, rfl, rfl⟩

/-- C3 (amended): when `put` returns an error, the state is the pre-state with
some prefix of `put`'s writes (directory creation, `id` file, `data` file,
`ksh` file) applied; the read-phase and validation errors leave the exact
pre-state, but a write failure between the `data` and `ksh` writes leaves a
data file present without its `ksh` file. -/
theorem claimC3_amended (h : List Nat → Nat) (fuel : Nat) (s : Store)
    (id : Nat) (c : BlockContext) (buf : List Nat) (sh : Nat) (tag : String)
    (e : StoreErr) (s' : Store)
    (herr : putF h fuel s id c buf sh tag = (.error e, s')) :
    s' = s ∨ s' = mkDirEntry s id ∨ s' = writeIdFile (mkDirEntry s id) id ∨
    s' = writeData (writeIdFile (mkDirEntry s id) id) id buf ∨
    s' = writeKsh (writeData (writeIdFile (mkDirEntry s id) id) id buf)
          id sh := by
  unfold putF at herr
  split at herr
  · injection herr with h1 h2
    exact Or.inl h2.symm
  · split at herr
    · split at herr
      · injection herr with h1 h2
        exact Or.inl h2.symm
      · split at herr
        · injection herr with h1 h2
          exact Or.inr (Or.inl h2.symm)
        · split at herr
          · injection herr with h1 h2
            exact Or.inr (Or.inr (Or.inl h2.symm))
          · split at herr
            · injection herr with h1 h2
              exact Or.inr (Or.inr (Or.inr (Or.inl h2.symm)))
            · split at herr
              · injection herr with h1 h2
                exact Or.inr (Or.inr (Or.inr (Or.inr h2.symm)))
              · injection herr with h1 h2
                exact absurd h1 (by simp)
    · injection herr with h1 h2
      exact Or.inl h2.symm
    · split at herr
      · injection herr with h1 h2
        exact Or.inl h2.symm
      · split at herr
        · injection herr with h1 h2
          exact Or.inl h2.symm
        · injection herr with h1 h2
          exact absurd h1 (by simp)

/-- Witness for the amended C3: the fuel-3 failure state is one of the
enumerated write prefixes. -/
theorem claimC3_witness :
    [(10, blockDir.mk true (some [1, 2, 3, 4]) none none)] = ([] : Store) ∨
    [(10, blockDir.mk true (some [1, 2, 3, 4]) none none)] =
      mkDirEntry [] 10 ∨
    [(10, blockDir.mk true (some [1, 2, 3, 4]) none none)] =
      writeIdFile (mkDirEntry [] 10) 10 ∨
    [(10, blockDir.mk true (some [1, 2, 3, 4]) none none)] =
      writeData (writeIdFile (mkDirEntry [] 10) 10) 10 [1, 2, 3, 4] ∨
    [(10, blockDir.mk true (some [1, 2, 3, 4]) none none)] =
      writeKsh (writeData (writeIdFile (mkDirEntry [] 10) 10) 10 [1, 2, 3, 4])
        10 7 :=
  claimC3_amended hashSum 3 [] 10 cctx [1, 2, 3, 4] 7 "t" .ioError
    [(10, blockDir.mk true (some [1, 2, 3, 4]) none none)] rfl

/-- C4: `put` is idempotent — when a `put` of data hashing to its id succeeds,
repeating it with identical arguments succeeds and leaves the store in exactly
the same state. -/
theorem claimC4_put_idempotent (h : List Nat → Nat) (s : Store) (id : Nat)
    (c : BlockContext) (buf : List Nat) (sh : Nat) (tag : String) (s' : Store)
    (hhash : h buf = id)
    (h1 : put h s id c buf sh tag = (.ok (), s')) :
    put h s' id c buf sh tag = (.ok (), s') := by
  have hv : validateBlockPut h id c buf = .ok () := by
    rw [validateBlockPut, if_pos hhash]
  unfold put at h1
  split at h1
  · injection h1 with hx _
    exact absurd hx (by simp)
  · split at h1
    · -- first put wrote data, ksh and the new reference
      injection h1 with _ h2
      have hdata : dataOf s' id = some buf := by
        rw [← h2, addRefs_single, dataOf_putRefInfo, dataOf_writeKsh,
          dataOf_writeData_self]
      have hksh : kshOf s' id = some sh := by
        rw [← h2, addRefs_single, kshOf_putRefInfo, kshOf_writeKsh_self]
      have hctx' : hasContext s' id c = true := by
        rw [hasContext, refCheckExists, ← h2, addRefs_single,
          getRefInfo_putRefInfo_self, refLookup_refPut_self]
        rfl
      have hgd' : getData h s' id = .ok (buf, sh) :=
        (getData_ok_iff h s' id buf sh).mpr ⟨hdata, hksh, hhash.symm⟩
      have hgdc : getDataWithContext h s' id c = .ok (buf, sh) := by
        rw [getDataWithContext, if_pos hctx', hgd']
      simp only [put, hv, hgdc]
      rw [if_neg (by simp), ← h2, addRefs_single_idem]
    · injection h1 with hx _
      exact absurd hx (by simp)
    · -- data already existed for this context, same server half
      rename_i a esh heq
      split at h1
      · injection h1 with hx _
        exact absurd hx (by simp)
      · rename_i hne
        injection h1 with _ h2
        have hesh : esh = sh := not_not.mp hne
        subst hesh
        rw [getDataWithContext] at heq
        by_cases hhc : hasContext s id c = true
        · rw [if_pos hhc] at heq
          obtain ⟨hdata, hksh, hid⟩ := (getData_ok_iff h s id a esh).mp heq
          have hdata' : dataOf s' id = some a := by
            rw [← h2, addRefs_single, dataOf_putRefInfo]
            exact hdata
          have hksh' : kshOf s' id = some esh := by
            rw [← h2, addRefs_single, kshOf_putRefInfo]
            exact hksh
          have hctx' : hasContext s' id c = true := by
            rw [hasContext, refCheckExists, ← h2, addRefs_single,
              getRefInfo_putRefInfo_self, refLookup_refPut_self]
            rfl
          have hgd' : getData h s' id = .ok (a, esh) :=
            (getData_ok_iff h s' id a esh).mpr ⟨hdata', hksh', hid⟩
          have hgdc : getDataWithContext h s' id c = .ok (a, esh) := by
            rw [getDataWithContext, if_pos hctx', hgd']
          simp only [put, hv, hgdc]
          rw [if_neg (by simp), ← h2, addRefs_single_idem]
        · rw [if_neg hhc] at heq
          exact absurd heq (by simp)

/-- Witness for C4: the concrete first put on the empty store produces the
fully written block, and the repeated put returns the same state. -/
theorem claimC4_witness :
    hashSum [1, 2, 3, 4] = 10 ∧
    put hashSum [] 10 cctx [1, 2, 3, 4] 7 "t" =
      (.ok (), [(10, blockDir.mk true (some [1, 2, 3, 4]) (some 7)
        (some [(cctx, blockRefEntry.mk .liveBlockRef "t")]))]) ∧
    put hashSum [(10, blockDir.mk true (some [1, 2, 3, 4]) (some 7)
        (some [(cctx, blockRefEntry.mk .liveBlockRef "t")]))]
      10 cctx [1, 2, 3, 4] 7 "t" =
      (.ok (), [(10, blockDir.mk true (some [1, 2, 3, 4]) (some 7)
        (some [(cctx, blockRefEntry.mk .liveBlockRef "t")]))]) :=
  ⟨rfl, rfl,
    claimC4_put_idempotent hashSum [] 10 cctx [1, 2, 3, 4] 7 "t"
      [(10, blockDir.mk true (some [1, 2, 3, 4]) (some 7)
        (some [(cctx, blockRefEntry.mk .liveBlockRef "t")]))] rfl rfl⟩

end KBFS
